import Mathlib

/-!
Shallow embedding of the Hls orchestrator class (src/hls.ts) of tvfe/hls.js.

The class coordinates a fixed set of components, owns derived level-selection
state, and exposes lifecycle operations.  External collaborators
(AbrController, LevelController, StreamController, CapLevelController, the
EventEmitter) are visible to this file only through the fields the orchestrator
reads and writes on them and the calls it delegates to them; those fields are
inlined into the state record and the delegated calls are recorded in an
effect trace, exactly as the orchestrator issues them.
-/

namespace HlsCore

/-- A quality variant descriptor; the orchestrator only reads `maxBitrate`. -/
structure Level where
  maxBitrate : Int
deriving Repr, DecidableEq

/--
State visible to the orchestrator in src/hls.ts:
* `lcLevels` — `levelController.levels` (nullable array, hence `Option`);
* `minAutoBitrate` — `config.minAutoBitrate`;
* `capLevelToPlayerSize` — `config.capLevelToPlayerSize`;
* `autoLevelCapping` — the private `_autoLevelCapping` field;
* `abrNextAutoLevel` — `abrController.nextAutoLevel` (the bandwidth
  estimator's suggestion, an integer input per the orchestrator);
* `manualLevel` — `levelController.manualLevel`;
* `lcStartLevel` — `levelController.startLevel`;
* `media` — the private `_media` reference (media elements as opaque ids);
* `url` — the private `url` field;
* `listeners` — the registry held by `_emitter` (listeners as opaque ids);
* `coreComponents`, `networkControllers` — the two component lists
  (components as opaque ids).
-/
structure HlsState where
  lcLevels : Option (List Level)
  minAutoBitrate : Int
  capLevelToPlayerSize : Bool
  autoLevelCapping : Int
  abrNextAutoLevel : Int
  manualLevel : Int
  lcStartLevel : Int
  media : Option Nat
  url : Option String
  listeners : List Nat
  coreComponents : List Nat
  networkControllers : List Nat
deriving Repr, DecidableEq

/-- Observable calls the orchestrator makes: events published on the emitter
and calls delegated to components. -/
inductive Effect where
  | emitDestroying
  | emitMediaAttaching (media : Nat)
  | emitMediaDetaching
  | emitManifestLoading (url : String)
  | destroyComponent (c : Nat)
  | immediateLevelSwitch
  | nextLevelSwitch
  | startCapping
  | stopCapping
deriving Repr, DecidableEq

/-- `get levels ()`: `levelController.levels ? levelController.levels : []`. -/
def levels (s : HlsState) : List Level :=
  s.lcLevels.getD []

/-- The ascending scan inside `get minAutoLevel ()`: return the first index
`i` with `levels[i].maxBitrate > minAutoBitrate`, else fall through to `0`. -/
def minAutoLevelScan (minAutoBitrate : Int) : List Level → Int → Int
  | [], _ => 0
  | l :: rest, i =>
    if l.maxBitrate > minAutoBitrate then i
    else minAutoLevelScan minAutoBitrate rest (i + 1)

/-- `get minAutoLevel ()` of src/hls.ts (the `!levels` guard is vacuous since
the `levels` getter always yields an array; the empty array reaches the final
`return 0`). -/
def minAutoLevel (s : HlsState) : Int :=
  minAutoLevelScan s.minAutoBitrate (levels s) 0

/-- `get maxAutoLevel ()` of src/hls.ts: `levels.length - 1` when capping is
`-1` and the level array is non-empty, otherwise the capping value. -/
def maxAutoLevel (s : HlsState) : Int :=
  if s.autoLevelCapping = -1 ∧ (levels s).length ≠ 0 then
    ((levels s).length : Int) - 1
  else
    s.autoLevelCapping

/-- `get nextAutoLevel ()` of src/hls.ts:
`Math.min(Math.max(abrController.nextAutoLevel, minAutoLevel), maxAutoLevel)`. -/
def nextAutoLevel (s : HlsState) : Int :=
  min (max s.abrNextAutoLevel (minAutoLevel s)) (maxAutoLevel s)

/-- `set nextAutoLevel (nextLevel)` of src/hls.ts:
`abrController.nextAutoLevel = Math.max(minAutoLevel, nextLevel)`. -/
def setNextAutoLevel (s : HlsState) (nextLevel : Int) : HlsState :=
  { s with abrNextAutoLevel := max (minAutoLevel s) nextLevel }

/-- `attachMedia (media)`: store the reference, publish `MEDIA_ATTACHING`
with payload `{ media }`. -/
def attachMedia (s : HlsState) (media : Nat) : HlsState × List Effect :=
  ({ s with media := some media }, [Effect.emitMediaAttaching media])

/-- `detachMedia ()`: publish `MEDIA_DETACHING`, then clear the reference. -/
def detachMedia (s : HlsState) : HlsState × List Effect :=
  ({ s with media := none }, [Effect.emitMediaDetaching])

/-- `recoverMediaError ()`: capture `_media`, call `detachMedia()`, then call
`attachMedia(media)` only if the captured reference was non-null. -/
def recoverMediaError (s : HlsState) : HlsState × List Effect :=
  let media := s.media
  let d := detachMedia s
  match media with
  | some m =>
    let a := attachMedia d.1 m
    (a.1, d.2 ++ a.2)
  | none => (d.1, d.2)

/-- `destroy ()`: publish `DESTROYING`, call `detachMedia()`, call
`destroy()` on each member of `coreComponents.concat(networkControllers)` in
list order, null the url, remove all listeners, reset `_autoLevelCapping`. -/
def destroy (s : HlsState) : HlsState × List Effect :=
  let d := detachMedia s
  let s1 := d.1
  let destroyCalls :=
    (s1.coreComponents ++ s1.networkControllers).map Effect.destroyComponent
  let s2 := { s1 with
    url := none
    listeners := []
    autoLevelCapping := -1 }
  (s2, Effect.emitDestroying :: d.2 ++ destroyCalls)

/-- `set loadLevel (newLevel)`: `levelController.manualLevel = newLevel`. -/
def setLoadLevel (s : HlsState) (newLevel : Int) : HlsState × List Effect :=
  ({ s with manualLevel := newLevel }, [])

/-- `set currentLevel (newLevel)`: `this.loadLevel = newLevel` followed by
`streamController.immediateLevelSwitch()`. -/
def setCurrentLevel (s : HlsState) (newLevel : Int) : HlsState × List Effect :=
  let l := setLoadLevel s newLevel
  (l.1, l.2 ++ [Effect.immediateLevelSwitch])

/-- `set nextLevel (newLevel)`: `levelController.manualLevel = newLevel`
followed by `streamController.nextLevelSwitch()`. -/
def setNextLevel (s : HlsState) (newLevel : Int) : HlsState × List Effect :=
  ({ s with manualLevel := newLevel }, [Effect.nextLevelSwitch])

/-- `set autoLevelCapping (newLevel)`: write `_autoLevelCapping` only when the
value differs (the guard only skips a log; the resulting state is the same). -/
def setAutoLevelCapping (s : HlsState) (newLevel : Int) : HlsState :=
  if s.autoLevelCapping ≠ newLevel then { s with autoLevelCapping := newLevel }
  else s

/-- `set startLevel (newLevel)`: clamp to `Math.max(newLevel, minAutoLevel)`
unless `newLevel === -1`, then store into `levelController.startLevel`. -/
def setStartLevel (s : HlsState) (newLevel : Int) : HlsState × List Effect :=
  let nl := if newLevel ≠ -1 then max newLevel (minAutoLevel s) else newLevel
  ({ s with lcStartLevel := nl }, [])

/-- `set capLevelToPlayerSize (shouldStartCapping)`: when the (boolean-coerced)
new value differs from `config.capLevelToPlayerSize`, either start capping, or
stop capping, reset `autoLevelCapping` to `-1` and trigger
`streamController.nextLevelSwitch()`; then store the new flag.  Equal values
fall through with no effect. -/
def setCapLevelToPlayerSize (s : HlsState) (shouldStartCapping : Bool) :
    HlsState × List Effect :=
  let newCapLevelToPlayerSize := shouldStartCapping
  if newCapLevelToPlayerSize ≠ s.capLevelToPlayerSize then
    if newCapLevelToPlayerSize then
      ({ s with capLevelToPlayerSize := newCapLevelToPlayerSize },
       [Effect.startCapping])
    else
      let s1 := setAutoLevelCapping s (-1)
      ({ s1 with capLevelToPlayerSize := newCapLevelToPlayerSize },
       [Effect.stopCapping, Effect.nextLevelSwitch])
  else
    (s, [])

/--
Spec-side statement of the `minAutoLevel` derivation, written from the spec's
words for comparison with the source-derived `minAutoLevel`: "index of the
first Level in the sequence whose maximum bitrate exceeds the configured
floor, scanning in ascending index order; `0` if the sequence is empty or no
level qualifies."
-/
def specMinAutoLevel (ls : List Level) (minAutoBitrate : Int) : Int :=
  match ls.findIdx? (fun l => decide (l.maxBitrate > minAutoBitrate)) with
  | some i => (i : Int)
  | none => 0

/-- The ascending scan agrees with `List.findIdx?` started at the same
index. -/
theorem minAutoLevelScan_findIdx (b : Int) (ls : List Level) :
    ∀ i : ℕ,
      minAutoLevelScan b ls (i : Int)
        = match ls.findIdx? (fun l => decide (l.maxBitrate > b)) i with
          | some j => (j : Int)
          | none => 0 := by
  induction ls with
  | nil => intro i; simp [minAutoLevelScan, List.findIdx?]
  | cons l rest ih =>
    intro i
    rw [List.findIdx?_cons]
    by_cases h : l.maxBitrate > b
    · simp [minAutoLevelScan, h]
    · have hrec := ih (i + 1)
      have hcast : ((i + 1 : ℕ) : Int) = (i : Int) + 1 := by push_cast; ring
      rw [hcast] at hrec
      simpa [minAutoLevelScan, h] using hrec

/-- Counting a mapped destroy call recovers the count of the component id. -/
theorem count_map_destroyComponent (c : Nat) (l : List Nat) :
    ((l.map Effect.destroyComponent).count (Effect.destroyComponent c))
      = l.count c := by
  induction l with
  | nil => simp
  | cons x xs ih => simp [List.count_cons, ih]

/-- A neutral orchestrator state used as the base of concrete instances. -/
def baseState : HlsState where
  lcLevels := some []
  minAutoBitrate := 0
  capLevelToPlayerSize := false
  autoLevelCapping := -1
  abrNextAutoLevel := 0
  manualLevel := -1
  lcStartLevel := -1
  media := none
  url := none
  listeners := []
  coreComponents := []
  networkControllers := []

/-- A reachable state where `autoLevelCapping` (settable publicly and by the
cap-level controller) lies below `minAutoLevel`: two levels with max bitrates
1 and 5, bitrate floor 2 (so `minAutoLevel = 1`), capping 0 (so
`maxAutoLevel = 0`). -/
def cexC1 : HlsState :=
  { baseState with
    lcLevels := some [⟨1⟩, ⟨5⟩]
    minAutoBitrate := 2
    autoLevelCapping := 0
    abrNextAutoLevel := 9 }

/-- Another capping-below-floor state: max bitrates 3 and 8, floor 4
(`minAutoLevel = 1`), capping 0 (`maxAutoLevel = 0`), estimator suggests 7. -/
def cexC2 : HlsState :=
  { baseState with
    lcLevels := some [⟨3⟩, ⟨8⟩]
    minAutoBitrate := 4
    autoLevelCapping := 0
    abrNextAutoLevel := 7 }

/-- A state with `minAutoLevel = 1 ≤ maxAutoLevel = 1`. -/
def wChain : HlsState :=
  { baseState with
    lcLevels := some [⟨1⟩, ⟨5⟩]
    minAutoBitrate := 2
    abrNextAutoLevel := 0 }

/-- Three levels, floor pushing `minAutoLevel` to 1, uncapped
(`maxAutoLevel = 2`), estimator suggesting the out-of-range index 5. -/
def wClamp : HlsState :=
  { baseState with
    lcLevels := some [⟨1⟩, ⟨5⟩, ⟨9⟩]
    minAutoBitrate := 2
    abrNextAutoLevel := 5 }

/-- A populated state for exercising `destroy`. -/
def wDestroy : HlsState :=
  { baseState with
    media := some 4
    url := some "stream.m3u8"
    listeners := [9]
    autoLevelCapping := 5
    coreComponents := [1, 2]
    networkControllers := [3] }

/-- A state with capping-to-player-size currently enabled. -/
def wCap : HlsState :=
  { baseState with
    capLevelToPlayerSize := true
    autoLevelCapping := 3 }

/-- A state with an attached media reference. -/
def wMedia : HlsState :=
  { baseState with media := some 7 }

/-- A state with `minAutoLevel = 1`. -/
def wStart : HlsState :=
  { baseState with
    lcLevels := some [⟨1⟩, ⟨5⟩]
    minAutoBitrate := 2 }

/-- A single-level state: `minAutoLevel = 0`, `maxAutoLevel = 0`. -/
def wNext : HlsState :=
  { baseState with lcLevels := some [⟨5⟩] }

/-- Claim C1, as stated, is false on the code: in state `cexC1` (a capping
value of 0 with a bitrate floor that makes `minAutoLevel = 1`), the getters
give `minAutoLevel = 1`, `maxAutoLevel = 0`, `nextAutoLevel = 0`, so the chain
`minAutoLevel ≤ nextAutoLevel ≤ maxAutoLevel` does not hold. -/
theorem autoLevelChain_cex :
    ¬ (minAutoLevel cexC1 ≤ nextAutoLevel cexC1
        ∧ nextAutoLevel cexC1 ≤ maxAutoLevel cexC1) := by
  decide

/-- Claim C1 amended: `nextAutoLevel ≤ maxAutoLevel` always holds, and the
full chain `minAutoLevel ≤ nextAutoLevel ≤ maxAutoLevel` holds whenever
`minAutoLevel ≤ maxAutoLevel`; it fails exactly when the capping value pulls
`maxAutoLevel` below `minAutoLevel`. -/
theorem autoLevelChain_amended (s : HlsState) :
    nextAutoLevel s ≤ maxAutoLevel s
    ∧ (minAutoLevel s ≤ maxAutoLevel s → minAutoLevel s ≤ nextAutoLevel s) := by
  unfold nextAutoLevel
  omega

/-- Witness for `autoLevelChain_amended` at the concrete state `wChain`. -/
theorem autoLevelChain_amended_witness :
    minAutoLevel wChain ≤ nextAutoLevel wChain :=
  (autoLevelChain_amended wChain).2 (by decide)

/-- Claim C2, as stated, is false on the code: in state `cexC2` the interval
`[minAutoLevel, maxAutoLevel]` is `[1, 0]` and the getter's result 0 lies
outside it, so the suggestion is not "clamped into the interval". -/
theorem nextAutoLevelClamp_cex :
    ¬ (minAutoLevel cexC2 ≤ nextAutoLevel cexC2
        ∧ nextAutoLevel cexC2 ≤ maxAutoLevel cexC2) := by
  decide

/-- Claim C2 amended: whenever `minAutoLevel ≤ maxAutoLevel`, reading
`nextAutoLevel` returns the estimator's suggestion clamped into
`[minAutoLevel, maxAutoLevel]` — an out-of-range suggestion is silently
bounded to the nearer endpoint, never rejected; when `maxAutoLevel <
minAutoLevel` the getter returns `maxAutoLevel` regardless of the
suggestion. -/
theorem nextAutoLevelClamp_spec (s : HlsState) :
    (minAutoLevel s ≤ maxAutoLevel s →
      (minAutoLevel s ≤ nextAutoLevel s ∧ nextAutoLevel s ≤ maxAutoLevel s)
      ∧ (s.abrNextAutoLevel < minAutoLevel s →
          nextAutoLevel s = minAutoLevel s)
      ∧ (maxAutoLevel s < s.abrNextAutoLevel →
          nextAutoLevel s = maxAutoLevel s)
      ∧ (minAutoLevel s ≤ s.abrNextAutoLevel →
          s.abrNextAutoLevel ≤ maxAutoLevel s →
          nextAutoLevel s = s.abrNextAutoLevel))
    ∧ (maxAutoLevel s < minAutoLevel s → nextAutoLevel s = maxAutoLevel s) := by
  unfold nextAutoLevel
  omega

/-- Witness for `nextAutoLevelClamp_spec` at `wClamp`: the suggestion 5
exceeds `maxAutoLevel = 2` and is bounded to it. -/
theorem nextAutoLevelClamp_spec_witness :
    nextAutoLevel wClamp = maxAutoLevel wClamp :=
  ((nextAutoLevelClamp_spec wClamp).1 (by decide)).2.2.1 (by decide)

/-- Claim C3: `minAutoLevel` equals the smallest index whose level's max
bitrate strictly exceeds the configured floor, scanning in ascending index
order, and equals 0 when the sequence is empty or no level qualifies — the
source getter agrees with the spec-side `specMinAutoLevel` on every state. -/
theorem minAutoLevel_matches_spec (s : HlsState) :
    minAutoLevel s = specMinAutoLevel (levels s) s.minAutoBitrate := by
  have h := minAutoLevelScan_findIdx s.minAutoBitrate (levels s) 0
  simpa [minAutoLevel, specMinAutoLevel] using h

/-- Claim C4: `destroy` publishes the destroying event first, then the
media-detaching event, then calls `destroy()` exactly once on every member of
`coreComponents ++ networkControllers` (componentwise, given the lists are
duplicate-free as construction makes them); afterwards the media reference and
source locator are cleared, the listener registry is empty, and
`autoLevelCapping` is back to `-1`. -/
theorem destroy_spec (s : HlsState) (c : Nat)
    (hmem : c ∈ s.coreComponents ++ s.networkControllers)
    (hnodup : (s.coreComponents ++ s.networkControllers).Nodup) :
    (destroy s).2
      = Effect.emitDestroying :: Effect.emitMediaDetaching ::
          (s.coreComponents ++ s.networkControllers).map Effect.destroyComponent
    ∧ ((destroy s).2.count (Effect.destroyComponent c)) = 1
    ∧ (destroy s).1.media = none
    ∧ (destroy s).1.url = none
    ∧ (destroy s).1.listeners = []
    ∧ (destroy s).1.autoLevelCapping = -1 := by
  have htr : (destroy s).2
      = Effect.emitDestroying :: Effect.emitMediaDetaching ::
          (s.coreComponents ++ s.networkControllers).map
            Effect.destroyComponent := by
    simp [destroy, detachMedia]
  refine ⟨htr, ?_, by simp [destroy, detachMedia], by simp [destroy, detachMedia],
    by simp [destroy, detachMedia], by simp [destroy, detachMedia]⟩
  rw [htr]
  have h1 := List.count_eq_one_of_mem hnodup hmem
  rw [List.count_append] at h1
  simp [List.count_cons, count_map_destroyComponent, h1]

/-- Witness for `destroy_spec`: component 2 of the concrete state `wDestroy`
is destroyed exactly once. -/
theorem destroy_spec_witness :
    ((destroy wDestroy).2.count (Effect.destroyComponent 2)) = 1 :=
  (destroy_spec wDestroy 2 (by decide) (by decide)).2.1

/-- Claim C5: `currentLevel := L` and `loadLevel := L` produce the identical
state — the level controller's manual override set to `L` and nothing else
changed — and differ only in the delegated calls: exactly one
`immediateLevelSwitch` for `currentLevel`, none for `loadLevel`. -/
theorem currentLevel_vs_loadLevel (s : HlsState) (L : Int) :
    (setCurrentLevel s L).1 = (setLoadLevel s L).1
    ∧ (setCurrentLevel s L).1.manualLevel = L
    ∧ (setLoadLevel s L).1.manualLevel = L
    ∧ (setLoadLevel s L).1 = { s with manualLevel := L }
    ∧ (setCurrentLevel s L).2 = [Effect.immediateLevelSwitch]
    ∧ (setLoadLevel s L).2 = [] := by
  simp [setCurrentLevel, setLoadLevel]

/-- Claim C6: toggling `capLevelToPlayerSize` from `true` to `false` resets
`autoLevelCapping` to `-1`, stores the new flag, and triggers exactly one
next-switch delegation; setting it to the currently configured value returns
the state unchanged with no delegated call at all. -/
theorem capLevelToPlayerSize_toggle (s : HlsState) :
    (s.capLevelToPlayerSize = true →
      (setCapLevelToPlayerSize s false).1.autoLevelCapping = -1
      ∧ (setCapLevelToPlayerSize s false).1.capLevelToPlayerSize = false
      ∧ ((setCapLevelToPlayerSize s false).2.count Effect.nextLevelSwitch) = 1)
    ∧ (∀ b, b = s.capLevelToPlayerSize → setCapLevelToPlayerSize s b = (s, [])) := by
  constructor
  · intro h
    simp only [setCapLevelToPlayerSize, setAutoLevelCapping, h]
    norm_num
    split_ifs with h2 <;> simp_all [List.count_cons]
  · intro b hb
    simp [setCapLevelToPlayerSize, hb]

/-- Witness for `capLevelToPlayerSize_toggle` at the concrete state `wCap`. -/
theorem capLevelToPlayerSize_toggle_witness :
    (setCapLevelToPlayerSize wCap false).1.autoLevelCapping = -1 :=
  ((capLevelToPlayerSize_toggle wCap).1 (by decide)).1

/-- Claim C7: `attachMedia m` immediately followed by `detachMedia` leaves
`media = null` and the combined trace is exactly one media-attaching event
with payload `m` followed by exactly one media-detaching event. -/
theorem attachMedia_detachMedia_roundtrip (s : HlsState) (m : Nat) :
    (detachMedia (attachMedia s m).1).1.media = none
    ∧ (attachMedia s m).2 ++ (detachMedia (attachMedia s m).1).2
        = [Effect.emitMediaAttaching m, Effect.emitMediaDetaching] := by
  simp [attachMedia, detachMedia]

/-- Claim C8: `recoverMediaError` captures the attached media reference,
detaches, and re-attaches the same reference if and only if one existed; with
no media attached the state is returned unchanged (only the detaching event is
published, with no attach), and the operation is total. -/
theorem recoverMediaError_spec (s : HlsState) :
    (s.media = none →
      recoverMediaError s = (s, [Effect.emitMediaDetaching]))
    ∧ (∀ m, s.media = some m →
        recoverMediaError s
          = (s, [Effect.emitMediaDetaching, Effect.emitMediaAttaching m])) := by
  constructor
  · intro h
    cases s
    simp_all [recoverMediaError, detachMedia]
  · intro m h
    cases s
    simp_all [recoverMediaError, detachMedia, attachMedia]

/-- Witness for `recoverMediaError_spec` at the concrete state `wMedia`. -/
theorem recoverMediaError_spec_witness :
    recoverMediaError wMedia
      = (wMedia, [Effect.emitMediaDetaching, Effect.emitMediaAttaching 7]) :=
  (recoverMediaError_spec wMedia).2 7 rfl

/-- Claim C9: `startLevel := L` with `L ≠ -1` stores
`max(L, minAutoLevel)` in the level controller, while `startLevel := -1` is
stored unclamped. -/
theorem startLevel_clamp (s : HlsState) (L : Int) (h : L ≠ -1) :
    (setStartLevel s L).1.lcStartLevel = max L (minAutoLevel s)
    ∧ (setStartLevel s (-1)).1.lcStartLevel = -1 := by
  simp [setStartLevel, h]

/-- Witness for `startLevel_clamp`: in `wStart` (`minAutoLevel = 1`), setting
`startLevel := 0` stores `max 0 1 = 1`. -/
theorem startLevel_clamp_witness :
    (setStartLevel wStart 0).1.lcStartLevel = max 0 (minAutoLevel wStart) :=
  (startLevel_clamp wStart 0 (by decide)).1

/-- Claim C10: the `nextAutoLevel` setter stores
`max(minAutoLevel, v)` into the bandwidth estimator — values below
`minAutoLevel` are raised, values at or above it (even above `maxAutoLevel`)
are stored untouched — and only the getter bounds the value by `maxAutoLevel`
on read. -/
theorem nextAutoLevel_setter_spec (s : HlsState) (v : Int) :
    (setNextAutoLevel s v).abrNextAutoLevel = max (minAutoLevel s) v
    ∧ (minAutoLevel s ≤ v → (setNextAutoLevel s v).abrNextAutoLevel = v)
    ∧ nextAutoLevel (setNextAutoLevel s v)
        ≤ maxAutoLevel (setNextAutoLevel s v) := by
  refine ⟨rfl, fun h => ?_, ?_⟩
  · simp [setNextAutoLevel, max_eq_right h]
  · unfold nextAutoLevel
    omega

/-- Witness for `nextAutoLevel_setter_spec`: in the one-level state `wNext`
(`minAutoLevel = 0`, `maxAutoLevel = 0`) the forced value 5 is stored without
upper clamping. -/
theorem nextAutoLevel_setter_spec_witness :
    (setNextAutoLevel wNext 5).abrNextAutoLevel = 5 :=
  (nextAutoLevel_setter_spec wNext 5).2.1 (by decide)

end HlsCore
